import Mathlib

/-!
# Verification of the text-label editor (two revisions: `part_000` and `App.tsx`)

Shallow embedding of the editor's pure logic:

* the placeholder engine `replacePlaceholders` (JS
  `text.replace(/\{\{(\w+)\}\}/g, fn)` modelled as a left-to-right scan),
* the text-element store mutations (`deleteText`, `duplicateText`),
* the pointer-drag handler (`handleMouseMove`) with its position clamp,
* the toolbar display expressions (`selectedText?.field || default`),
* the PDF export orchestrator (`exportToPDF`) with its page loop,
  snapshot and `finally`-restoration.

JavaScript numbers are modelled as exact rationals (`ℚ`); decimal literals
such as `0.352` become the exact rationals they denote.  JS objects mapping
column names to strings become association lists with first-match lookup.
A JS value that may be `null`/`undefined` becomes an `Option`.
-/

namespace Editor

attribute [local semireducible] Rat.add Rat.mul Rat.sub Rat.inv Rat.ofScientific

/-- A batch row: a CSV record mapping column names to string values
(`interface BatchData { [key: string]: string }`). -/
def Row : Type := List (String × String)

instance : DecidableEq Row := by
  unfold Row
  infer_instance

/-- JS property lookup `data[key]`: `some` the first value stored under
`key`, `none` when the key is absent (`undefined`). -/
def lookupRow (row : Row) (k : String) : Option String :=
  match List.find? (fun p => p.1 == k) row with
  | some p => some p.2
  | none => none

/-- A word character in the sense of the regex class `\w`:
`[A-Za-z0-9_]`. -/
def wordChar (c : Char) : Bool :=
  c.isAlphanum || c == '_'

/-- Attempt to match the regex `\{\{(\w+)\}\}` at the head of `cs`.
On success, returns the captured identifier and the characters after the
match.  `\w+` is greedy; since `}` is not a word character no backtracking
can produce a different match, so the maximal word-character run is the
only candidate. -/
def matchPh (cs : List Char) : Option (String × List Char) :=
  match cs with
  | c1 :: c2 :: rest =>
    if c1 = '{' ∧ c2 = '{' then
      match rest.takeWhile wordChar, rest.dropWhile wordChar with
      | c :: w, d1 :: d2 :: tail =>
        if d1 = '}' ∧ d2 = '}' then some (⟨c :: w⟩, tail) else none
      | _, _ => none
    else none
  | _ => none

/-- One pass of JS `String.prototype.replace` with a global regex and a
replacer function `repl`: scan left to right; at a match, emit
`repl key` (never re-scanned) and continue after the match; otherwise
copy one character.  `fuel` bounds the recursion; `fuel ≥ cs.length`
always suffices. -/
def substFuel (repl : String → String) : Nat → List Char → List Char
  | 0, cs => cs
  | fuel + 1, cs =>
    match matchPh cs with
    | some (k, tail) => (repl k).data ++ substFuel repl fuel tail
    | none =>
      match cs with
      | [] => []
      | c :: cs' => c :: substFuel repl fuel cs'

/-- Global regex replacement over a character list. -/
def substAux (repl : String → String) (cs : List Char) : List Char :=
  substFuel repl cs.length cs

/-- The exact matched substring `{{k}}`, as rebuilt by the `App.tsx`
replacer when it falls back to `match`. -/
def phToken (k : String) : String :=
  ⟨'{' :: '{' :: (k.data ++ ['}', '}'])⟩

/-- Replacer of `part_000` (lines 263–265): a present key yields its
value (empty string included); an absent key yields the bracketed
fallback `[key]`. -/
def bracketRepl (row : Row) (k : String) : String :=
  match lookupRow row k with
  | some v => v
  | none => "[" ++ k ++ "]"

/-- `replacePlaceholders` of `part_000` (lines 261–266).  The `data`
argument is nullable there (`if (!data) return text`), hence `Option`. -/
def replacePlaceholders (text : String) (data : Option Row) : String :=
  match data with
  | none => text
  | some row => ⟨substAux (bracketRepl row) text.data⟩

/-- Replacer of `App.tsx` (line 254): `data[key] || match`.  A key that
is absent, or whose value is falsy (the empty string), keeps the
original token verbatim. -/
def keepRepl (row : Row) (k : String) : String :=
  match lookupRow row k with
  | some v => if v = "" then phToken k else v
  | none => phToken k

/-- `replacePlaceholders` of `App.tsx` (lines 253–255): no null guard,
`||`-based fallback. -/
def replacePlaceholdersTsx (text : String) (row : Row) : String :=
  ⟨substAux (keepRepl row) text.data⟩

/-- Does some position of `cs` start a `\{\{(\w+)\}\}` match? -/
def hasToken : List Char → Bool
  | [] => false
  | c :: cs => (matchPh (c :: cs)).isSome || hasToken cs

/-- Horizontal alignment of a text element (`'left' | 'center' | 'right'`). -/
inductive Align where
  | left
  | center
  | right
deriving DecidableEq

/-- `interface TextElement` (both revisions, identical).  `isOverflowing`
is optional in the source (`isOverflowing?: boolean`) and absent on
freshly created elements. -/
structure TextElement where
  id : String
  text : String
  x : ℚ
  y : ℚ
  fontSize : ℚ
  align : Align
  bold : Bool
  italic : Bool
  lineHeight : ℚ
  padding : ℚ
  isOverflowing : Option Bool := none
deriving DecidableEq

/-- The mutable editor state of `part_000`'s `App`: one field per
`useState`/`useRef` hook that the verified operations read or write.
`canvasAvailable` models whether `canvasRef.current` is non-null.
There is deliberately no canvas-size field: neither revision holds the
canvas dimensions in state (the canvas `div` has the fixed inline style
`width: '794px', height: '370px'`). -/
structure EditorState where
  texts : List TextElement
  selectedId : Option String
  isDragging : Bool
  dragStartPos : Option (ℚ × ℚ)
  batchData : List Row
  currentBatchIndex : Nat
  isExporting : Bool
  isCapturing : Bool
  canvasAvailable : Bool
deriving DecidableEq

/-- Result of `getBoundingClientRect()` on the canvas `div`. -/
structure DomRect where
  left : ℚ
  top : ℚ
  width : ℚ
  height : ℚ
deriving DecidableEq

/-- The pointer coordinates of a `mousemove` event. -/
structure MouseEvt where
  clientX : ℚ
  clientY : ℚ
deriving DecidableEq

/-- `deleteText` (`part_000` lines 228–232, `App.tsx` lines 221–225):
filter out the elements with the given id, then unconditionally clear
the selection. -/
def deleteText (id : String) (s : EditorState) : EditorState :=
  { s with
    texts := s.texts.filter (fun t => !(t.id == id)),
    selectedId := none }

/-- `duplicateText` (`part_000` lines 245–258).  The fresh id produced
by `Date.now().toString()` is an external input, passed as `now`: the
code performs no uniqueness check on it. -/
def duplicateText (now : String) (id : String) (s : EditorState) : EditorState :=
  match s.texts.find? (fun t => t.id == id) with
  | some t =>
    let newT : TextElement := { t with id := now, x := t.x + 20, y := t.y + 20 }
    { s with texts := s.texts ++ [newT], selectedId := some now }
  | none => s

/-- `handleMouseMove` (`part_000` lines 166–178): while a drag is
active, reposition the selected element at the pointer position minus
the grab offset, clamping `x` to `[0, rect.width - 100]` and `y` to
`[0, rect.height - 30]` — the fixed minimum footprint from the inline
styles `minWidth: '100px'` and the handle row, not the element's
rendered size. -/
def handleMouseMove (rect : DomRect) (e : MouseEvt) (s : EditorState) : EditorState :=
  match s.isDragging, s.selectedId, s.canvasAvailable, s.dragStartPos with
  | true, some sid, true, some dsp =>
    let x := e.clientX - rect.left - dsp.1
    let y := e.clientY - rect.top - dsp.2
    { s with
      texts := s.texts.map (fun t =>
        if t.id == sid then
          { t with
            x := max 0 (min x (rect.width - 100)),
            y := max 0 (min y (rect.height - 30)) }
        else t) }
  | _, _, _, _ => s

/-- Fold a sequence of pointer-move events (each with the canvas rect
measured at that moment) through `handleMouseMove`. -/
def applyMoves (moves : List (DomRect × MouseEvt)) (s : EditorState) : EditorState :=
  moves.foldl (fun st p => handleMouseMove p.1 p.2 st) s

/-- The canvas width in CSS pixels: the inline style `width: '794px'`
(`part_000` line 656).  No state field and no handler in either
revision ever stores or modifies a canvas dimension. -/
def canvasWidthPx : ℚ := 794

/-- The canvas height in CSS pixels: the inline style `height: '370px'`. -/
def canvasHeightPx : ℚ := 370

/-- The overflow test of `checkTextOverflow` (`part_000` lines 281–283)
for one element, given its measured rendered bounding box. -/
def overflowFlag (canvasW canvasH : ℚ) (t : TextElement)
    (measuredW measuredH : ℚ) : Bool :=
  decide (t.x + measuredW > canvasW ∨ t.y + measuredH > canvasH)

/-- `texts.find(text => text.id === selectedId)` (`part_000` line 443):
the selected element, if any.  When `selectedId` is `null` the strict
equality with a string id never holds. -/
def selectedTextOf (texts : List TextElement) (selectedId : Option String) :
    Option TextElement :=
  match selectedId with
  | some sid => texts.find? (fun t => t.id == sid)
  | none => none

/-- Toolbar font-size display `selectedText?.fontSize || fontSize`
(`part_000` line 547): JS `||` falls back on any falsy value, so a
selected element's `0` would be displayed as the default. -/
def displayedFontSize (texts : List TextElement) (selectedId : Option String)
    (fontSize : ℚ) : ℚ :=
  match selectedTextOf texts selectedId with
  | some t => if t.fontSize = 0 then fontSize else t.fontSize
  | none => fontSize

/-- Toolbar padding display `selectedText?.padding || padding`
(`part_000` line 647): a selected element with `padding` 0 displays the
default instead. -/
def displayedPadding (texts : List TextElement) (selectedId : Option String)
    (padding : ℚ) : ℚ :=
  match selectedTextOf texts selectedId with
  | some t => if t.padding = 0 then padding else t.padding
  | none => padding

/-- Toolbar line-height display `selectedText?.lineHeight || lineHeight`
(`part_000` lines 622, 630). -/
def displayedLineHeight (texts : List TextElement) (selectedId : Option String)
    (lineHeight : ℚ) : ℚ :=
  match selectedTextOf texts selectedId with
  | some t => if t.lineHeight = 0 then lineHeight else t.lineHeight
  | none => lineHeight

/-- Bold-toggle highlight `selectedText?.bold || isBold`
(`part_000` line 599): a selected element with `bold` `false` shows the
default instead. -/
def displayedBold (texts : List TextElement) (selectedId : Option String)
    (isBold : Bool) : Bool :=
  match selectedTextOf texts selectedId with
  | some t => t.bold || isBold
  | none => isBold

/-- Italic-toggle highlight `selectedText?.italic || isItalic`
(`part_000` line 609). -/
def displayedItalic (texts : List TextElement) (selectedId : Option String)
    (isItalic : Bool) : Bool :=
  match selectedTextOf texts selectedId with
  | some t => t.italic || isItalic
  | none => isItalic

/-- Alignment highlight `selectedText?.align || textAlign`
(`part_000` lines 566, 576, 586): the stored align is one of the
nonempty strings `'left' | 'center' | 'right'`, always truthy, so the
`||` fallback fires only when no element is selected. -/
def displayedAlign (texts : List TextElement) (selectedId : Option String)
    (textAlign : Align) : Align :=
  match selectedTextOf texts selectedId with
  | some t => t.align
  | none => textAlign

/-- The live canvas preview of one element's text (`part_000`
lines 715–717): `batchData.length > 0 && currentBatchIndex <
batchData.length ? replacePlaceholders(text.text,
batchData[currentBatchIndex]) : text.text`. -/
def previewText (batchData : List Row) (idx : Nat) (t : TextElement) : String :=
  if !batchData.isEmpty && decide (idx < batchData.length) then
    replacePlaceholders t.text (batchData.get? idx)
  else t.text

/-- jsPDF font-style selection (`part_000` lines 369–372). -/
def fontStyleOf (t : TextElement) : String :=
  if t.bold && t.italic then "bolditalic"
  else if t.bold then "bold"
  else if t.italic then "italic"
  else "normal"

/-- One `pdf.text(...)` call emitted for one line of one element:
its string, anchor position in millimetres, font style and point size. -/
structure DrawCall where
  line : String
  xPos : ℚ
  yPos : ℚ
  style : String
  size : ℚ
deriving DecidableEq

/-- The `textLines.forEach` loop of `part_000` (lines 386–407):
per line, pick the anchor from the alignment, shift by the padding in
millimetres, and advance `yOffset` by `fontSize * 0.352 * lineHeight`. -/
def drawLines (t : TextElement) (x maxW : ℚ) :
    List String → ℚ → List DrawCall
  | [], _ => []
  | line :: rest, yOffset =>
    let xPos : ℚ :=
      match t.align with
      | Align.center => x + maxW / 2
      | Align.right => x + maxW
      | Align.left => x
    { line := line,
      xPos := xPos + t.padding * (264 / 1000 : ℚ),
      yPos := yOffset,
      style := fontStyleOf t,
      size := t.fontSize * (3 / 4 : ℚ) } ::
    drawLines t x maxW rest (yOffset + t.fontSize * (352 / 1000 : ℚ) * t.lineHeight)

/-- The per-element rendered text of the export loop (`part_000`
lines 361–363): `currentData ? replacePlaceholders(text.text,
currentData) : text.text`. -/
def exportRenderedText (data : Option Row) (t : TextElement) : String :=
  match data with
  | some d => replacePlaceholders t.text (some d)
  | none => t.text

/-- Vector rendering of one element onto the current page (`part_000`
lines 359–408): substitute placeholders, skip blank results, convert
the pixel position to millimetres (`x * 210 / 794`, `y * 98 / 370`) and
emit one draw call per `\n`-separated line. -/
def renderElement (data : Option Row) (t : TextElement) : List DrawCall :=
  let renderedText := exportRenderedText data t
  if renderedText.trim = "" then []
  else
    let x := t.x * 210 / 794
    let y := t.y * 98 / 370
    let maxW : ℚ := 600 * 210 / 794
    drawLines t x maxW (renderedText.splitOn "\n")
      (y + t.fontSize * (352 / 1000 : ℚ))

/-- One PDF page: the element draw calls in store order. -/
def renderPage (texts : List TextElement) (data : Option Row) : List DrawCall :=
  (texts.map (renderElement data)).flatten

/-- Target-row selection of `exportToPDF` (`part_000` lines 330–334):
all rows when `allPages` and rows exist; the row at the cursor when rows
exist; otherwise one synthetic `null` pass. -/
def pagesToExport (allPages : Bool) (batchData : List Row) (idx : Nat) :
    List (Option Row) :=
  if allPages && !batchData.isEmpty then batchData.map some
  else if !batchData.isEmpty then [batchData.get? idx]
  else [none]

/-- The `try` block of `exportToPDF` (`part_000` lines 313–412).
State writes inside it: `setIsCapturing(true)` before `html2canvas`,
`setIsCapturing(false)` after; `texts` is never written.  External
failures — `html2canvas`, a jsPDF call in the page loop, or
`pdf.save` — are modelled by the oracle `err`: `none` means every
external call succeeds, `some 0` makes `html2canvas` throw, and
`some (k+1)` makes a later call throw. -/
def exportTry (allPages : Bool) (err : Option Nat) (s : EditorState) :
    EditorState × Except Nat (List (List DrawCall)) :=
  let s1 := { s with isCapturing := true }
  if err == some 0 then (s1, Except.error 0)
  else
    let s2 := { s1 with isCapturing := false }
    let pages :=
      (pagesToExport allPages s.batchData s.currentBatchIndex).map
        (renderPage s.texts)
    match err with
    | some k => (s2, Except.error k)
    | none => (s2, Except.ok pages)

/-- `exportToPDF` (`part_000` lines 303–423): early return when the
canvas ref is null; otherwise set `isExporting`, snapshot
`originalTexts = [...texts]`, run the `try` block, and in `finally`
restore the snapshot and clear both flags.  Returns the new state and
the saved document's pages (`none` when an error aborted the export). -/
def exportToPDF (allPages : Bool) (err : Option Nat) (s : EditorState) :
    EditorState × Option (List (List DrawCall)) :=
  if s.canvasAvailable = false then (s, none)
  else
    let s1 := { s with isExporting := true }
    let originalTexts := s1.texts
    let afterTry := exportTry allPages err s1
    ({ afterTry.1 with
        texts := originalTexts,
        isExporting := false,
        isCapturing := false },
      match afterTry.2 with
      | Except.ok pages => some pages
      | Except.error _ => none)

/-- The element's fixed minimum drag footprint keeps it on canvas:
the property the position clamp of `handleMouseMove` actually
establishes (footprint `100 × 30`, from the clamp constants). -/
def inFootprint (t : TextElement) : Prop :=
  0 ≤ t.x ∧ t.x + 100 ≤ canvasWidthPx ∧ 0 ≤ t.y ∧ t.y + 30 ≤ canvasHeightPx

instance (t : TextElement) : Decidable (inFootprint t) := by
  unfold inFootprint
  infer_instance

/-- Sample batch row from the spec's concrete scenario. -/
def rowAda : Row := [("name", "Ada")]

/-- Sample element holding the spec's concrete template. -/
def elemA : TextElement :=
  { id := "a", text := "Hello \x7b\x7bname\x7d\x7d", x := 50, y := 50,
    fontSize := 16, align := Align.left, bold := false, italic := false,
    lineHeight := 3 / 2, padding := 0 }

/-- A second sample element. -/
def elemB : TextElement := { elemA with id := "b", text := "Second" }

/-- Sample editor state with one batch row loaded, ready to export. -/
def sExport : EditorState :=
  { texts := [elemA, elemB], selectedId := none, isDragging := false,
    dragStartPos := none, batchData := [rowAda], currentBatchIndex := 0,
    isExporting := false, isCapturing := false, canvasAvailable := true }

/-- Sample editor state with no batch rows loaded. -/
def sNoBatch : EditorState := { sExport with batchData := [] }

/-- Sample element sitting at the canvas origin. -/
def elemOrigin : TextElement := { elemA with x := 0, y := 0 }

/-- Sample state mid-drag: `elemOrigin` selected and grabbed at its
top-left corner. -/
def sDrag : EditorState :=
  { sExport with
    texts := [elemOrigin], selectedId := some "a",
    isDragging := true, dragStartPos := some (0, 0) }

/-- The canvas rect as measured with the canvas at the viewport origin:
the fixed `794 × 370` style size. -/
def rect794 : DomRect := { left := 0, top := 0, width := 794, height := 370 }

/-- A pointer event far beyond the bottom-right canvas corner. -/
def evtFar : MouseEvt := { clientX := 10000, clientY := 10000 }

/-- A pointer event far to the left of the canvas. -/
def evtLeft : MouseEvt := { clientX := -500, clientY := 0 }

/-- Sample element whose id is the digit string a same-millisecond
`Date.now().toString()` would reproduce. -/
def elemDup : TextElement :=
  { id := "5", text := "T", x := 0, y := 0, fontSize := 16,
    align := Align.left, bold := true, italic := false, lineHeight := 3 / 2,
    padding := 4 }

/-- Sample state holding only `elemDup`. -/
def sDup : EditorState := { sExport with texts := [elemDup], selectedId := none }

/-- Sample selected element whose `padding` is the falsy value `0` and
whose `bold` is `false`. -/
def elemPad0 : TextElement := { elemA with id := "p" }

/-- Sample state with `elemA` selected (so deleting `elemB` exercises
deselection of an unrelated element). -/
def sDel : EditorState := { sExport with selectedId := some "a" }

/-! ## Helper lemmas: the substitution scanner -/

theorem substFuel_nil (repl : String → String) :
    ∀ fuel, substFuel repl fuel [] = []
  | 0 => rfl
  | _ + 1 => rfl

/-- A successful match consumes at least the four braces and one key
character, so the remainder is strictly shorter. -/
theorem matchPh_length {cs : List Char} {k : String} {tail : List Char}
    (h : matchPh cs = some (k, tail)) : tail.length < cs.length := by
  rcases cs with _ | ⟨c1, _ | ⟨c2, rest⟩⟩
  · simp [matchPh] at h
  · simp [matchPh] at h
  · simp only [matchPh] at h
    by_cases hbrace : c1 = '{' ∧ c2 = '{'
    · rw [if_pos hbrace] at h
      rcases htw : rest.takeWhile wordChar with - | ⟨c, w⟩ <;>
        rcases hdw : rest.dropWhile wordChar with - | ⟨d1, - | ⟨d2, tail'⟩⟩ <;>
        rw [htw, hdw] at h <;> simp only [] at h
      · exact absurd h (by simp)
      · exact absurd h (by simp)
      · exact absurd h (by simp)
      · exact absurd h (by simp)
      · exact absurd h (by simp)
      · by_cases hrb : d1 = '}' ∧ d2 = '}'
        · rw [if_pos hrb] at h
          have htail : tail' = tail := congrArg Prod.snd (Option.some.inj h)
          have hlen : (c :: w ++ d1 :: d2 :: tail').length = rest.length := by
            rw [← htw, ← hdw, List.takeWhile_append_dropWhile]
          subst htail
          simp only [List.length_cons, List.length_append] at hlen ⊢
          omega
        · rw [if_neg hrb] at h
          exact absurd h (by simp)
    · rw [if_neg hbrace] at h
      exact absurd h (by simp)

/-- The scanner's fuel is irrelevant once it covers the input length. -/
theorem substFuel_congr (repl : String → String) :
    ∀ f g cs, cs.length ≤ f → cs.length ≤ g →
      substFuel repl f cs = substFuel repl g cs := by
  intro f
  induction f with
  | zero =>
    intro g cs hf _
    obtain rfl : cs = [] := List.length_eq_zero.mp (Nat.le_zero.mp hf)
    rw [substFuel_nil, substFuel_nil]
  | succ f ih =>
    intro g cs hf hg
    rcases g with _ | g
    · obtain rfl : cs = [] := List.length_eq_zero.mp (Nat.le_zero.mp hg)
      rw [substFuel_nil, substFuel_nil]
    · show substFuel repl (f + 1) cs = substFuel repl (g + 1) cs
      rcases hm : matchPh cs with - | ⟨k, tail⟩
      · rcases cs with - | ⟨c, cs'⟩
        · rfl
        · simp only [substFuel, hm]
          have hlen : cs'.length ≤ f ∧ cs'.length ≤ g := by
            simp only [List.length_cons] at hf hg
            omega
          rw [ih g cs' hlen.1 hlen.2]
      · have hlt := matchPh_length hm
        simp only [substFuel, hm]
        have hlen : tail.length ≤ f ∧ tail.length ≤ g := by omega
        rw [ih g tail hlen.1 hlen.2]

theorem substAux_nil (repl : String → String) : substAux repl [] = [] := rfl

/-- Unfolding `substAux` at a match: emit the replacement (not
re-scanned) and continue after the matched token. -/
theorem substAux_some {cs : List Char} {k : String} {tail : List Char}
    (repl : String → String) (h : matchPh cs = some (k, tail)) :
    substAux repl cs = (repl k).data ++ substAux repl tail := by
  have hlt := matchPh_length h
  unfold substAux
  obtain ⟨m, hm⟩ : ∃ m, cs.length = m + 1 := ⟨cs.length - 1, by omega⟩
  rw [hm]
  simp only [substFuel, h]
  rw [substFuel_congr repl m tail.length tail (by omega) le_rfl]

/-- Unfolding `substAux` when no match starts here: copy one character. -/
theorem substAux_none {c : Char} {cs : List Char}
    (repl : String → String) (h : matchPh (c :: cs) = none) :
    substAux repl (c :: cs) = c :: substAux repl cs := by
  unfold substAux
  simp only [List.length_cons, substFuel, h]

/-- A position not starting with `{` starts no match. -/
theorem matchPh_eq_none_of_head_ne {c : Char} {cs : List Char}
    (h : ¬ c = '{') : matchPh (c :: cs) = none := by
  rcases cs with - | ⟨c2, cs'⟩
  · rfl
  · simp only [matchPh]
    rw [if_neg (fun hand => h hand.1)]

/-- A text with no token anywhere is returned unchanged. -/
theorem substAux_of_no_token (repl : String → String) :
    ∀ cs, hasToken cs = false → substAux repl cs = cs := by
  intro cs
  induction cs with
  | nil => intro _; rfl
  | cons c cs' ih =>
    intro h
    rw [show hasToken (c :: cs')
        = ((matchPh (c :: cs')).isSome || hasToken cs') from rfl] at h
    rcases hm : matchPh (c :: cs') with - | p
    · rw [hm, Option.isSome_none, Bool.false_or] at h
      rw [substAux_none repl hm, ih h]
    · rw [hm, Option.isSome_some, Bool.true_or] at h
      exact absurd h (by simp)

/-- Characters other than `{` pass through the scanner unchanged. -/
theorem substAux_append_of_no_lbrace (repl : String → String) :
    ∀ pre, (∀ c ∈ pre, ¬ c = '{') → ∀ rest,
      substAux repl (pre ++ rest) = pre ++ substAux repl rest := by
  intro pre
  induction pre with
  | nil => intro _ rest; rfl
  | cons c pre' ih =>
    intro h rest
    have hc : ¬ c = '{' := h c (List.mem_cons_self c pre')
    rw [List.cons_append, substAux_none repl (matchPh_eq_none_of_head_ne hc),
      ih (fun d hd => h d (List.mem_cons_of_mem c hd)) rest, List.cons_append]

/-- `takeWhile`/`dropWhile` on a word run followed by `}`. -/
theorem takeWhile_word_append :
    ∀ (w : List Char), w.all wordChar = true → ∀ rest,
      (w ++ '}' :: rest).takeWhile wordChar = w
      ∧ (w ++ '}' :: rest).dropWhile wordChar = '}' :: rest := by
  intro w
  induction w with
  | nil =>
    intro _ rest
    have hnw : wordChar '}' = false := by decide
    constructor
    · rw [List.nil_append, List.takeWhile_cons, hnw]
      simp
    · rw [List.nil_append, List.dropWhile_cons, hnw]
      simp
  | cons c w' ih =>
    intro hall rest
    rw [List.all_cons, Bool.and_eq_true] at hall
    constructor
    · rw [List.cons_append, List.takeWhile_cons, hall.1]
      simp only [if_true]
      rw [(ih hall.2 rest).1]
    · rw [List.cons_append, List.dropWhile_cons, hall.1]
      simp only [if_true]
      exact (ih hall.2 rest).2

/-- The scanner matches the token `{{w}}` exactly, capturing `w`. -/
theorem matchPh_token (w : List Char) (hne : w ≠ [])
    (hall : w.all wordChar = true) (rest : List Char) :
    matchPh ('{' :: '{' :: (w ++ '}' :: '}' :: rest)) = some (⟨w⟩, rest) := by
  obtain ⟨c, w', rfl⟩ : ∃ c w', w = c :: w' := by
    rcases w with - | ⟨c, w'⟩
    · exact absurd rfl hne
    · exact ⟨c, w', rfl⟩
  have h := takeWhile_word_append (c :: w') hall ('}' :: rest)
  simp only [matchPh]
  rw [if_pos ⟨trivial, trivial⟩, h.1, h.2]
  simp only []
  rw [if_pos ⟨trivial, trivial⟩]

/-- A token is substituted by the replacer's output, and scanning
resumes after it. -/
theorem substAux_token (repl : String → String) (w : List Char) (hne : w ≠ [])
    (hall : w.all wordChar = true) (rest : List Char) :
    substAux repl ('{' :: '{' :: (w ++ '}' :: '}' :: rest))
      = (repl ⟨w⟩).data ++ substAux repl rest :=
  substAux_some repl (matchPh_token w hne hall rest)

/-! ## Helper lemmas: string-level substitution facts -/

theorem phToken_data (k : String) :
    (phToken k).data = '{' :: '{' :: (k.data ++ '}' :: '}' :: []) := rfl

/-- A single missing-key token is replaced by `[key]` in the `part_000`
revision. -/
theorem replace_missing_bracket (k : String) (row : Row) (hk : k.data ≠ [])
    (hall : k.data.all wordChar = true) (hmiss : lookupRow row k = none) :
    replacePlaceholders (phToken k) (some row) = "[" ++ k ++ "]" := by
  show (⟨substAux (bracketRepl row) (phToken k).data⟩ : String) = _
  rw [phToken_data, substAux_token _ _ hk hall, substAux_nil, List.append_nil]
  show (⟨(bracketRepl row k).data⟩ : String) = _
  unfold bracketRepl
  rw [hmiss]

/-- A single present-key token is replaced by the stored value in the
`part_000` revision, the empty string included. -/
theorem replace_present_value (k v : String) (row : Row) (hk : k.data ≠ [])
    (hall : k.data.all wordChar = true) (hv : lookupRow row k = some v) :
    replacePlaceholders (phToken k) (some row) = v := by
  show (⟨substAux (bracketRepl row) (phToken k).data⟩ : String) = _
  rw [phToken_data, substAux_token _ _ hk hall, substAux_nil, List.append_nil]
  show (⟨(bracketRepl row k).data⟩ : String) = _
  unfold bracketRepl
  rw [hv]

/-- A single missing-key token is kept verbatim in the `App.tsx`
revision. -/
theorem replaceTsx_missing_keep (k : String) (row : Row) (hk : k.data ≠ [])
    (hall : k.data.all wordChar = true) (hmiss : lookupRow row k = none) :
    replacePlaceholdersTsx (phToken k) row = phToken k := by
  show (⟨substAux (keepRepl row) (phToken k).data⟩ : String) = _
  rw [phToken_data, substAux_token _ _ hk hall, substAux_nil, List.append_nil]
  show (⟨(keepRepl row k).data⟩ : String) = _
  unfold keepRepl
  rw [hmiss]

/-- A present key with a truthy (nonempty) value is substituted in the
`App.tsx` revision. -/
theorem replaceTsx_present_truthy (k v : String) (row : Row) (hk : k.data ≠ [])
    (hall : k.data.all wordChar = true) (hv : lookupRow row k = some v)
    (hne : v ≠ "") :
    replacePlaceholdersTsx (phToken k) row = v := by
  show (⟨substAux (keepRepl row) (phToken k).data⟩ : String) = _
  rw [phToken_data, substAux_token _ _ hk hall, substAux_nil, List.append_nil]
  show (⟨(keepRepl row k).data⟩ : String) = _
  unfold keepRepl
  rw [hv]
  show (⟨(if v = "" then phToken k else v).data⟩ : String) = v
  rw [if_neg hne]

/-- Two occurrences of the same present key both substitute to the same
value (`part_000` revision). -/
theorem replace_two_occurrences (k v : String) (row : Row) (hk : k.data ≠ [])
    (hall : k.data.all wordChar = true) (hv : lookupRow row k = some v) :
    replacePlaceholders (phToken k ++ " and " ++ phToken k) (some row)
      = v ++ " and " ++ v := by
  apply String.ext
  show substAux (bracketRepl row) (phToken k ++ " and " ++ phToken k).data = _
  have hdata : (phToken k ++ " and " ++ phToken k).data
      = '{' :: '{' :: (k.data ++ '}' :: '}' :: (" and ".data ++ (phToken k).data)) := by
    simp only [String.data_append, phToken_data]
    simp [List.append_assoc]
  rw [hdata, substAux_token _ _ hk hall,
    substAux_append_of_no_lbrace _ _ (by decide),
    phToken_data, substAux_token _ _ hk hall, substAux_nil, List.append_nil]
  show (bracketRepl row k).data ++ (" and ".data ++ (bracketRepl row k).data)
      = (v ++ " and " ++ v).data
  unfold bracketRepl
  rw [hv]
  simp [String.data_append, List.append_assoc]

/-- A substitution result with no remaining token is a fixed point of
the substitution (`part_000` revision). -/
theorem replace_id_of_no_token (u : String) (R : Row)
    (h : hasToken u.data = false) :
    replacePlaceholders u (some R) = u := by
  show (⟨substAux (bracketRepl R) u.data⟩ : String) = u
  rw [substAux_of_no_token _ _ h]

/-! ## Claim theorems -/

/-- C3: every missing-key token is handled by one fixed fallback policy
per revision — `part_000` substitutes the bracketed fallback `[identifier]`
and `App.tsx` keeps the token verbatim — and within each revision the
single `replacePlaceholders` function is what both call sites (the live
canvas preview and the PDF export loop) apply, so the policy is the same
at every call site; concretely, `"Hello {{name}}"` against the empty row
yields `"Hello [name]"` (`part_000`) resp. `"Hello {{name}}"` (`App.tsx`). -/
theorem placeholder_fallback_policy (k : String) (row : Row) (t : TextElement)
    (hk : k.data ≠ []) (hall : k.data.all wordChar = true)
    (hmiss : lookupRow row k = none) :
    replacePlaceholders (phToken k) (some row) = "[" ++ k ++ "]"
    ∧ replacePlaceholdersTsx (phToken k) row = phToken k
    ∧ previewText [row] 0 t = replacePlaceholders t.text (some row)
    ∧ exportRenderedText (some row) t = replacePlaceholders t.text (some row)
    ∧ replacePlaceholders "Hello \x7b\x7bname\x7d\x7d" (some []) = "Hello [name]"
    ∧ replacePlaceholdersTsx "Hello \x7b\x7bname\x7d\x7d" []
        = "Hello \x7b\x7bname\x7d\x7d" :=
  ⟨replace_missing_bracket k row hk hall hmiss,
   replaceTsx_missing_keep k row hk hall hmiss,
   rfl, rfl, by decide, by decide⟩

/-- Witness for C3 at `k = "name"`, a row lacking that key, and `elemA`. -/
theorem placeholder_fallback_policy_witness :
    replacePlaceholders (phToken "name") (some [("age", "7")])
      = "[" ++ "name" ++ "]"
    ∧ replacePlaceholdersTsx (phToken "name") [("age", "7")] = phToken "name" :=
  ⟨(placeholder_fallback_policy "name" [("age", "7")] elemA
      (by decide) (by decide) (by decide)).1,
   (placeholder_fallback_policy "name" [("age", "7")] elemA
      (by decide) (by decide) (by decide)).2.1⟩

/-- C4 counterexample: in the `App.tsx` revision, a key that is present
with the empty-string value is NOT substituted — `data[key] || match`
treats `""` as falsy and keeps the token — so the claim that both cited
implementations substitute present keys including empty-string values
fails. -/
theorem replaceTsx_drops_empty_value :
    lookupRow [("name", "")] "name" = some ""
    ∧ replacePlaceholdersTsx "Hi \x7b\x7bname\x7d\x7d" [("name", "")]
        = "Hi \x7b\x7bname\x7d\x7d"
    ∧ ("Hi \x7b\x7bname\x7d\x7d" : String) ≠ "Hi " := by decide

/-- C4 amended: in the `part_000` revision every present-key token —
empty-string values included — is replaced by the row's value, and
multiple occurrences of the same key all substitute to the identical
value (`"Hello {{name}}"` with `{name: "Ada"}` gives `"Hello Ada"`);
the `App.tsx` revision substitutes a present key only when its value is
truthy (nonempty). -/
theorem replace_present_key (k v : String) (row : Row)
    (hk : k.data ≠ []) (hall : k.data.all wordChar = true)
    (hv : lookupRow row k = some v) :
    replacePlaceholders (phToken k) (some row) = v
    ∧ replacePlaceholders (phToken k ++ " and " ++ phToken k) (some row)
        = v ++ " and " ++ v
    ∧ (v ≠ "" → replacePlaceholdersTsx (phToken k) row = v)
    ∧ replacePlaceholders "Hello \x7b\x7bname\x7d\x7d" (some [("name", "Ada")])
        = "Hello Ada" :=
  ⟨replace_present_value k v row hk hall hv,
   replace_two_occurrences k v row hk hall hv,
   fun hne => replaceTsx_present_truthy k v row hk hall hv hne,
   by decide⟩

/-- Witness for C4's amended claim at the empty-string value. -/
theorem replace_present_key_witness :
    replacePlaceholders (phToken "name") (some [("name", "")]) = "" :=
  (replace_present_key "name" "" [("name", "")]
    (by decide) (by decide) (by decide)).1

/-- C5: when the output of a substitution contains no further
`{{identifier}}` token, substituting again with the same row is the
identity — substituted values are never re-scanned. -/
theorem replace_idempotent_of_no_token (T : String) (R : Row)
    (h : hasToken (replacePlaceholders T (some R)).data = false) :
    replacePlaceholders (replacePlaceholders T (some R)) (some R)
      = replacePlaceholders T (some R) :=
  replace_id_of_no_token _ R h

/-- Witness for C5 at the spec's concrete template and row. -/
theorem replace_idempotent_of_no_token_witness :
    hasToken (replacePlaceholders "Hello \x7b\x7bname\x7d\x7d" (some rowAda)).data
      = false
    ∧ replacePlaceholders
        (replacePlaceholders "Hello \x7b\x7bname\x7d\x7d" (some rowAda))
        (some rowAda)
      = replacePlaceholders "Hello \x7b\x7bname\x7d\x7d" (some rowAda) :=
  ⟨by decide,
   replace_idempotent_of_no_token "Hello \x7b\x7bname\x7d\x7d" rowAda (by decide)⟩

/-- C10: `deleteText(id)` removes exactly the elements whose id equals
`id`, leaves every other element unchanged (and in order), and always
clears the selection — even when the deleted element was not the
selected one. -/
theorem deleteText_spec (s : EditorState) (id : String) :
    (deleteText id s).texts = s.texts.filter (fun t => !(t.id == id))
    ∧ (∀ t ∈ (deleteText id s).texts, t ∈ s.texts ∧ t.id ≠ id)
    ∧ (∀ t ∈ s.texts, t.id ≠ id → t ∈ (deleteText id s).texts)
    ∧ List.Sublist (deleteText id s).texts s.texts
    ∧ (deleteText id s).selectedId = none := by
  refine ⟨rfl, ?_, ?_, ?_, rfl⟩
  · intro t ht
    rw [show (deleteText id s).texts
        = s.texts.filter (fun t => !(t.id == id)) from rfl,
      List.mem_filter] at ht
    refine ⟨ht.1, ?_⟩
    simpa using ht.2
  · intro t ht hne
    rw [show (deleteText id s).texts
        = s.texts.filter (fun t => !(t.id == id)) from rfl,
      List.mem_filter]
    exact ⟨ht, by simpa using hne⟩
  · exact List.filter_sublist s.texts

/-- Witness for C10: deleting `"b"` keeps `elemA` and clears the
selection even though the selected element was `"a"`. -/
theorem deleteText_spec_witness :
    elemA ∈ (deleteText "b" sDel).texts
    ∧ (deleteText "b" sDel).selectedId = none :=
  ⟨(deleteText_spec sDel "b").2.2.1 elemA (List.mem_cons_self elemA [elemB])
      (by decide),
   (deleteText_spec sDel "b").2.2.2.2⟩

/-- C7 counterexample: `duplicateText` takes its new id from
`Date.now().toString()` with no uniqueness check, so a duplication whose
clock token coincides with an existing id (e.g. created in the same
millisecond) appends an element whose id equals an id already in the
store, refuting the claimed unconditional distinctness. -/
theorem duplicateText_id_collision :
    (duplicateText "5" "5" sDup).texts
      = [elemDup, { elemDup with x := 20, y := 20 }]
    ∧ ({ elemDup with x := 20, y := 20 } : TextElement).id = elemDup.id
    ∧ elemDup ∈ sDup.texts := by
  refine ⟨by decide, rfl, List.mem_cons_self elemDup []⟩

/-- C7 amended: for every id present in the store, `duplicateText`
appends exactly one new element copying the source's text and styling
fields (`text`, `fontSize`, `align`, `bold`, `italic`, `lineHeight`,
`padding`) at position exactly `(x + 20, y + 20)`, selecting it; its id
is the clock token, which is distinct from every existing id only when
that token is fresh (the code does not enforce this). -/
theorem duplicateText_spec_amended (s : EditorState) (id now : String)
    (t : TextElement)
    (hfind : s.texts.find? (fun u => u.id == id) = some t)
    (hfresh : ∀ u ∈ s.texts, u.id ≠ now) :
    (duplicateText now id s).texts
      = s.texts ++ [{ t with id := now, x := t.x + 20, y := t.y + 20 }]
    ∧ (∀ u ∈ s.texts,
        u.id ≠ ({ t with id := now, x := t.x + 20, y := t.y + 20 } :
          TextElement).id)
    ∧ (duplicateText now id s).selectedId = some now := by
  unfold duplicateText
  rw [hfind]
  exact ⟨rfl, fun u hu => hfresh u hu, rfl⟩

/-- Witness for C7's amended claim with the fresh token `"9"`. -/
theorem duplicateText_spec_amended_witness :
    (duplicateText "9" "5" sDup).texts
      = sDup.texts
        ++ [{ elemDup with id := "9", x := elemDup.x + 20, y := elemDup.y + 20 }]
    ∧ (duplicateText "9" "5" sDup).selectedId = some "9" :=
  ⟨(duplicateText_spec_amended sDup "5" "9" elemDup (by decide)
      (by decide)).1,
   (duplicateText_spec_amended sDup "5" "9" elemDup (by decide)
      (by decide)).2.2⟩

/-- C8 counterexample: the toolbar uses JS `||`, not `??`: with
`elemPad0` selected, its falsy `padding` value `0` is displayed as the
default `10`, and its `bold = false` is displayed as the default
`true` — the displayed value does not equal the selected element's
field. -/
theorem toolbar_display_falsy :
    selectedTextOf [elemPad0] (some "p") = some elemPad0
    ∧ elemPad0.padding = 0
    ∧ displayedPadding [elemPad0] (some "p") 10 = 10
    ∧ (10 : ℚ) ≠ 0
    ∧ elemPad0.bold = false
    ∧ displayedBold [elemPad0] (some "p") true = true := by decide

/-- C8 amended: every toolbar control displays
`selectedElement.field || defaultField`: when an element is selected,
its value is shown exactly when it is truthy (nonzero number, `true`,
or the always-nonempty align string), while falsy values — `padding`
0, `bold` `false`, `fontSize` 0 — fall back to the next-element
default; with no selection the default is always shown. -/
theorem toolbar_display_spec (texts : List TextElement) (selId : Option String)
    (t : TextElement) (dFont dLine dPad : ℚ) (dBold dItalic : Bool)
    (dAlign : Align) :
    (selectedTextOf texts selId = some t →
        displayedAlign texts selId dAlign = t.align
      ∧ (t.fontSize ≠ 0 → displayedFontSize texts selId dFont = t.fontSize)
      ∧ (t.fontSize = 0 → displayedFontSize texts selId dFont = dFont)
      ∧ (t.padding ≠ 0 → displayedPadding texts selId dPad = t.padding)
      ∧ (t.padding = 0 → displayedPadding texts selId dPad = dPad)
      ∧ (t.lineHeight ≠ 0 → displayedLineHeight texts selId dLine = t.lineHeight)
      ∧ (t.bold = true → displayedBold texts selId dBold = true)
      ∧ (t.bold = false → displayedBold texts selId dBold = dBold)
      ∧ (t.italic = true → displayedItalic texts selId dItalic = true)
      ∧ (t.italic = false → displayedItalic texts selId dItalic = dItalic))
    ∧ (selectedTextOf texts selId = none →
        displayedFontSize texts selId dFont = dFont
      ∧ displayedPadding texts selId dPad = dPad
      ∧ displayedLineHeight texts selId dLine = dLine
      ∧ displayedBold texts selId dBold = dBold
      ∧ displayedItalic texts selId dItalic = dItalic
      ∧ displayedAlign texts selId dAlign = dAlign) := by
  constructor
  · intro hsel
    unfold displayedAlign displayedFontSize displayedPadding
      displayedLineHeight displayedBold displayedItalic
    rw [hsel]
    refine ⟨rfl, fun h => if_neg h, fun h => if_pos h, fun h => if_neg h,
      fun h => if_pos h, fun h => if_neg h, ?_, ?_, ?_, ?_⟩
    · intro h
      show (t.bold || dBold) = true
      rw [h, Bool.true_or]
    · intro h
      show (t.bold || dBold) = dBold
      rw [h, Bool.false_or]
    · intro h
      show (t.italic || dItalic) = true
      rw [h, Bool.true_or]
    · intro h
      show (t.italic || dItalic) = dItalic
      rw [h, Bool.false_or]
  · intro hsel
    unfold displayedAlign displayedFontSize displayedPadding
      displayedLineHeight displayedBold displayedItalic
    rw [hsel]
    exact ⟨rfl, rfl, rfl, rfl, rfl, rfl⟩

/-- Witness for C8's amended claim: the truthy `fontSize` 16 of the
selected element takes precedence; its falsy `padding` 0 yields the
default `10`. -/
theorem toolbar_display_spec_witness :
    displayedFontSize [elemPad0] (some "p") 99 = elemPad0.fontSize
    ∧ displayedPadding [elemPad0] (some "p") 10 = 10 :=
  ⟨((toolbar_display_spec [elemPad0] (some "p") elemPad0 99 0 10 false false
      Align.left).1 (by decide)).2.1 (by decide),
   ((toolbar_display_spec [elemPad0] (some "p") elemPad0 99 0 10 false false
      Align.left).1 (by decide)).2.2.2.2.1 (by decide)⟩

/-- C9 counterexample: neither revision implements a canvas-resize
drag: the canvas `div` carries the fixed inline style `width: '794px'`,
no state field holds a canvas dimension, and the only pointer-move
handler (`handleMouseMove`) moves text elements.  A drag attempting to
shrink the canvas leaves the editor state untouched and the canvas
width at 794, not clamped to 400. -/
theorem canvas_resize_missing :
    canvasWidthPx = 794
    ∧ ¬ canvasWidthPx = 400
    ∧ handleMouseMove rect794 evtLeft sDrag = sDrag := by decide

/-- C9 amended: no canvas-resize operation exists; the canvas size is
the constant 794×370 from the inline style, and the only pointer-move
transition changes nothing but text-element positions — every other
state field is preserved by every pointer move. -/
theorem canvas_fixed_width (rect : DomRect) (e : MouseEvt) (s : EditorState) :
    canvasWidthPx = 794 ∧ canvasHeightPx = 370
    ∧ (handleMouseMove rect e s).selectedId = s.selectedId
    ∧ (handleMouseMove rect e s).isDragging = s.isDragging
    ∧ (handleMouseMove rect e s).dragStartPos = s.dragStartPos
    ∧ (handleMouseMove rect e s).batchData = s.batchData
    ∧ (handleMouseMove rect e s).currentBatchIndex = s.currentBatchIndex
    ∧ (handleMouseMove rect e s).isExporting = s.isExporting
    ∧ (handleMouseMove rect e s).isCapturing = s.isCapturing
    ∧ (handleMouseMove rect e s).canvasAvailable = s.canvasAvailable := by
  obtain ⟨texts, selId, dragging, dragStart, batch, idx, exp, cap, avail⟩ := s
  rcases dragging <;> rcases selId with - | sid <;> rcases avail <;>
    rcases dragStart with - | dsp <;>
    exact ⟨rfl, rfl, rfl, rfl, rfl, rfl, rfl, rfl, rfl, rfl⟩

/-- C6 counterexample: the drag clamp bounds `x` by
`canvasWidth - 100` — the fixed minimum footprint — not by the
element's rendered width.  A single clamped drag update puts the
element at `x = 694`; with a rendered bounding-box width of 600 (the
inline styles allow any width in `[100, 600]`), the box ends at
`694 + 600 = 1294 > 794`, leaving the canvas — and the code's own
overflow check reports exactly that. -/
theorem drag_overflow :
    (handleMouseMove rect794 evtFar sDrag).texts
      = [{ elemOrigin with x := 694, y := 340 }]
    ∧ (694 : ℚ) + 600 > 794
    ∧ ((100 : ℚ) ≤ 600 ∧ (600 : ℚ) ≤ 600)
    ∧ overflowFlag 794 370 { elemOrigin with x := 694, y := 340 } 600 30
        = true := by decide

/-- Bounds of the double clamp `max 0 (min a b)`. -/
theorem clamp_bounds (a b : ℚ) (hb : 0 ≤ b) :
    0 ≤ max 0 (min a b) ∧ max 0 (min a b) ≤ b :=
  ⟨le_max_left 0 (min a b), max_le hb (min_le_right a b)⟩

/-- One pointer move preserves the 100×30-footprint bounds of every
element: untouched elements keep their position, and the dragged
element's new position is clamped into
`[0, width − 100] × [0, height − 30]`. -/
theorem handleMouseMove_footprint (rect : DomRect) (e : MouseEvt)
    (s : EditorState) (hw : rect.width = canvasWidthPx)
    (hh : rect.height = canvasHeightPx)
    (hinit : ∀ t ∈ s.texts, inFootprint t) :
    ∀ t ∈ (handleMouseMove rect e s).texts, inFootprint t := by
  obtain ⟨texts, selId, dragging, dragStart, batch, idx, exp, cap, avail⟩ := s
  rcases dragging <;> rcases selId with - | sid <;> rcases avail <;>
    rcases dragStart with - | dsp
  all_goals try exact hinit
  intro t ht
  obtain ⟨u, hu, heq⟩ := List.mem_map.mp ht
  by_cases hid : (u.id == sid) = true
  · rw [if_pos hid] at heq
    subst heq
    have hx := clamp_bounds (e.clientX - rect.left - dsp.1) (rect.width - 100)
      (by rw [hw]; unfold canvasWidthPx; norm_num)
    have hy := clamp_bounds (e.clientY - rect.top - dsp.2) (rect.height - 30)
      (by rw [hh]; unfold canvasHeightPx; norm_num)
    refine ⟨hx.1, ?_, hy.1, ?_⟩
    · show (max 0 (min (e.clientX - rect.left - dsp.1) (rect.width - 100)))
          + 100 ≤ canvasWidthPx
      have hx2 := hx.2
      rw [hw] at hx2 ⊢
      unfold canvasWidthPx at hx2 ⊢
      linarith
    · show (max 0 (min (e.clientY - rect.top - dsp.2) (rect.height - 30)))
          + 30 ≤ canvasHeightPx
      have hy2 := hy.2
      rw [hh] at hy2 ⊢
      unfold canvasHeightPx at hy2 ⊢
      linarith
  · rw [if_neg hid] at heq
    subst heq
    exact hinit u hu

/-- C6 amended: after any sequence of pointer-move drag updates over
the fixed-size canvas, every element satisfies `0 ≤ x`,
`x + 100 ≤ canvasWidth`, `0 ≤ y` and `y + 30 ≤ canvasHeight` (given
the initial elements do): the clamp keeps only the fixed minimum
footprint `100 × 30` inside the canvas, not the rendered bounding box,
which may extend beyond it (that condition is merely flagged by
`isOverflowing`). -/
theorem drag_clamp_footprint :
    ∀ (moves : List (DomRect × MouseEvt)) (s : EditorState),
      (∀ p ∈ moves, p.1.width = canvasWidthPx ∧ p.1.height = canvasHeightPx) →
      (∀ t ∈ s.texts, inFootprint t) →
      ∀ t ∈ (applyMoves moves s).texts, inFootprint t := by
  intro moves
  induction moves with
  | nil => intro s _ hinit; exact hinit
  | cons p moves ih =>
    intro s hrect hinit
    exact ih (handleMouseMove p.1 p.2 s)
      (fun q hq => hrect q (List.mem_cons_of_mem p hq))
      (handleMouseMove_footprint p.1 p.2 s
        (hrect p (List.mem_cons_self p moves)).1
        (hrect p (List.mem_cons_self p moves)).2 hinit)

/-- Witness for C6's amended claim: the far-drag above lands the
element at `(694, 340)`, inside the footprint bounds. -/
theorem drag_clamp_footprint_witness :
    inFootprint { elemOrigin with x := 694, y := 340 } :=
  drag_clamp_footprint [(rect794, evtFar)] sDrag (by decide) (by decide)
    { elemOrigin with x := 694, y := 340 } (by decide)

/-- C1: every run of `exportToPDF` that enters the `try` block —
whether the capture and page loop succeed (`err = none`) or raise at
any point (`err = some k`) — ends with the live element list equal,
element by element, to the snapshot taken at the start, and with the
`isExporting` and `isCapturing` flags cleared: the restoration sits in
`finally`. -/
theorem exportToPDF_restores (allPages : Bool) (err : Option Nat)
    (s : EditorState) (h : s.canvasAvailable = true) :
    (exportToPDF allPages err s).1.texts = s.texts
    ∧ (exportToPDF allPages err s).1.isExporting = false
    ∧ (exportToPDF allPages err s).1.isCapturing = false := by
  unfold exportToPDF
  rw [h, if_neg (by simp : ¬ (true = false))]
  exact ⟨rfl, rfl, rfl⟩

/-- Witness for C1 on the error path `err = some 1` (a failure inside
the page loop). -/
theorem exportToPDF_restores_witness :
    (exportToPDF true (some 1) sExport).1.texts = sExport.texts
    ∧ (exportToPDF true (some 1) sExport).1.isExporting = false
    ∧ (exportToPDF true (some 1) sExport).1.isCapturing = false :=
  exportToPDF_restores true (some 1) sExport (by decide)

/-- A successful export emits exactly the pages of `pagesToExport`,
each rendered from the live elements. -/
theorem exportToPDF_success_pages (allPages : Bool) (s : EditorState)
    (h : s.canvasAvailable = true) :
    (exportToPDF allPages none s).2
      = some ((pagesToExport allPages s.batchData s.currentBatchIndex).map
          (renderPage s.texts)) := by
  unfold exportToPDF
  rw [h, if_neg (by simp : ¬ (true = false))]
  rfl

/-- C2: a successful export with an empty batch produces exactly one
page with no substitution; `allPages = true` with `N > 0` rows produces
exactly `N` pages, page `i` rendered from row `i` in source order;
`allPages = false` with a nonempty batch produces exactly one page
rendered from the row at `currentBatchIndex`. -/
theorem exportToPDF_pages (s : EditorState) (h : s.canvasAvailable = true) :
    (s.batchData = [] →
      ∀ allPages, (exportToPDF allPages none s).2
        = some [renderPage s.texts none])
    ∧ (s.batchData ≠ [] →
        (exportToPDF true none s).2
          = some (s.batchData.map (fun r => renderPage s.texts (some r)))
        ∧ (s.batchData.map (fun r => renderPage s.texts (some r))).length
            = s.batchData.length)
    ∧ (∀ hidx : s.currentBatchIndex < s.batchData.length,
        (exportToPDF false none s).2
          = some [renderPage s.texts
              (some (s.batchData.get ⟨s.currentBatchIndex, hidx⟩))]) := by
  refine ⟨?_, ?_, ?_⟩
  · intro hbd allPages
    rw [exportToPDF_success_pages allPages s h, hbd]
    simp [pagesToExport]
  · intro hne
    have hie : s.batchData.isEmpty = false := by
      simpa [List.isEmpty_iff] using hne
    rw [exportToPDF_success_pages true s h]
    constructor
    · simp [pagesToExport, hie, List.map_map, Function.comp]
    · simp
  · intro hidx
    have hne : s.batchData ≠ [] := by
      intro hbd
      rw [hbd] at hidx
      simp at hidx
    have hie : s.batchData.isEmpty = false := by
      simpa [List.isEmpty_iff] using hne
    rw [exportToPDF_success_pages false s h]
    simp [pagesToExport, hie]
    rw [List.getElem?_eq_getElem hidx]

/-- Witness for C2: the one-row batch of `sExport` yields its mapped
single page; the empty batch of `sNoBatch` yields one substitution-free
page. -/
theorem exportToPDF_pages_witness :
    (exportToPDF true none sExport).2
      = some (sExport.batchData.map (fun r => renderPage sExport.texts (some r)))
    ∧ (exportToPDF false none sNoBatch).2
      = some [renderPage sNoBatch.texts none] :=
  ⟨((exportToPDF_pages sExport (by decide)).2.1 (by decide)).1,
   (exportToPDF_pages sNoBatch (by decide)).1 (by decide) false⟩

end Editor
